import Mathlib

set_option maxRecDepth 100000

/-!
Verification of the result-acquisition and aggregation pipeline of the
kubernetes-performance-benchmark repository (src/benchmark.py), as a shallow
embedding in Lean 4.

Conventions of the embedding:
* Python exceptions become explicit error values (`Except PipelineError`,
  or the `WaitOutcome` sum for the wait loop).
* Machine floats are modelled as exact rationals (`ℚ`); Python's `round`
  becomes round-half-to-even on rationals, and Python's `str()` of a
  2-decimal-rounded float becomes an explicit rendering function.
* Effectful collaborators (the Kubernetes API) are injected as functions:
  a status provider `poll : round → podName → phase` and a log provider
  `readLog : podName → log`.
* Environment-driven toggles (the normalization env var, the node pool list
  read from the terraform vars file) become explicit parameters.
-/

namespace KubeBench

/-! ## JobWaiter: `wait_for_pods_to_finish` (src/benchmark.py lines 99-129) -/

def RETRY_INTERVAL_SECONDS : Nat := 30

def MAX_TIMEOUT_SECONDS : Nat := 90 * 60

/-- A pod phase is terminal when it is `"Succeeded"` or `"Failed"`
(line 114 of src/benchmark.py). -/
def isTerminalPhase (s : String) : Bool := s == "Succeeded" || s == "Failed"

/-- One polling round: query the phase of every pod, in pod order
(lines 109-112). -/
def pollRound (poll : Nat → String → String) (pods : List String) (r : Nat) :
    List String :=
  pods.map (poll r)

/-- Index of the first `"Failed"` status, mirroring
`pod_statuses.index("Failed")` (line 118). -/
def firstFailedIdx (statuses : List String) : Option Nat :=
  statuses.findIdx? (· == "Failed")

/-- Outcome of the wait: the Python function either returns normally
(`finished`) or raises the exception of line 121 (`jobFailed`, carrying the
name and the fetched log of the first failed pod). There is no timeout
outcome because the Python loop has none: when the `for` loop of line 108
exhausts its range, control falls through to line 129 and the function
returns normally. -/
inductive WaitOutcome where
  | finished
  | jobFailed (podName : String) (log : String)
deriving DecidableEq, Repr

/-- The polling loop of lines 108-127. `fuel` is the number of remaining
iterations of `range(MAX_TIMEOUT_SECONDS // RETRY_INTERVAL_SECONDS)`;
`rounds` counts the polling rounds issued so far (it is also the round index
passed to the status provider). The pair returned is (outcome, total number
of polling rounds issued). -/
def waitLoop (poll : Nat → String → String) (readLog : String → String)
    (pods : List String) : Nat → Nat → WaitOutcome × Nat
  | 0, rounds => (.finished, rounds)
  | fuel + 1, rounds =>
    let statuses := pollRound poll pods rounds
    if statuses.all isTerminalPhase then
      match firstFailedIdx statuses with
      | some i =>
        (.jobFailed (pods.getD i "") (readLog (pods.getD i "")), rounds + 1)
      | none => (.finished, rounds + 1)
    else
      waitLoop poll readLog pods fuel (rounds + 1)

/-- The wait operation with an explicit bound on the number of polling
rounds. -/
def waitForPods (poll : Nat → String → String) (readLog : String → String)
    (pods : List String) (maxAttempts : Nat) : WaitOutcome × Nat :=
  waitLoop poll readLog pods maxAttempts 0

/-- `wait_for_pods_to_finish` (line 103): the bound is
`MAX_TIMEOUT_SECONDS // RETRY_INTERVAL_SECONDS` = 180 rounds. -/
def wait_for_pods_to_finish (poll : Nat → String → String)
    (readLog : String → String) (pods : List String) : WaitOutcome × Nat :=
  waitForPods poll readLog pods (MAX_TIMEOUT_SECONDS / RETRY_INTERVAL_SECONDS)

/-! ## LogGrammarParser: `extract_relevant_log_lines` and
`extract_benchmark_results_from_pod_log` (src/benchmark.py lines 132-263) -/

/-- Errors of the pipeline. Each constructor corresponds to one `raise`
site of src/benchmark.py (carrying the data interpolated into the Python
error message), except `indexError`, `zeroDivisionError`,
`minEmptySequence` and `keyError`, which model the exceptions the Python
runtime itself raises at the corresponding operations (out-of-range list
indexing, float division by zero, `min([])`, and dict lookup of an absent
key). Spec names: `markerNotFound` = MarkerNotFound, `missingTestingLine`
and `nonEmptyLineAfterTesting` and `missingVirtualDiskLine` =
MalformedHeader stages, `separatorNotFound` = SeparatorNotFound,
`regexMismatch` = RecordParseError, `unexpectedTag` = UnexpectedTagError,
`missingResult` = MissingResultError, `nonNumericValue` =
NonNumericValueError. -/
inductive PipelineError where
  | markerNotFound (node_pool_name : String)
  | missingTestingLine (node_pool_name : String)
  | nonEmptyLineAfterTesting (line node_pool_name : String)
  | separatorNotFound (node_pool_name : String)
  | missingVirtualDiskLine (node_pool_name : String)
  | regexMismatch (line node_pool_name : String)
  | unexpectedTag (hib line node_pool_name : String)
  | missingResult (tool_name tool_config node_pool_name : String)
  | nonNumericValue (value : String)
  | keyError (node_pool_name : String)
  | zeroDivisionError
  | minEmptySequence
  | indexError
deriving DecidableEq, Repr

/-- The record type of line 132 (`BenchmarkResult` dataclass). -/
structure BenchmarkResult where
  vm_type : String
  tool_name : String
  tool_config : String
  result_unit : String
  result_value : String
deriving DecidableEq, Repr

def MARKER_LINE : String := "benchmarkresult"

/-- Split a character list at every `'\n'`, keeping empty pieces. -/
def splitOnNewline : List Char → List (List Char)
  | [] => [[]]
  | c :: tl =>
    let r := splitOnNewline tl
    if c = '\n' then [] :: r
    else
      match r with
      | [] => [[c]]
      | p :: ps => (c :: p) :: ps

/-- Python's `str.splitlines(keepends=False)` restricted to `"\n"` line
breaks (the only break character occurring in this pipeline's logs):
splitting on `"\n"` yields no trailing empty piece for a trailing newline,
and the empty string yields no lines at all. -/
def pySplitlines (s : String) : List String :=
  if s = "" then []
  else
    let parts := (splitOnNewline s.data).map String.mk
    if parts.getLast? = some "" then parts.dropLast else parts

/-- Python list indexing `l[i]` for a non-negative index: raises
`IndexError` when `i` is out of range. -/
def pyGet (l : List String) (i : Nat) : Except PipelineError String :=
  match l.get? i with
  | some x => .ok x
  | none => .error .indexError

/-- Does `sub` occur as a contiguous run inside `l`? -/
def listInfixOf (sub : List Char) : List Char → Bool
  | [] => sub.isPrefixOf []
  | c :: tl => sub.isPrefixOf (c :: tl) || listInfixOf sub tl

/-- Python's substring containment `sub in s`. -/
def containsSub (sub s : String) : Bool := listInfixOf sub.data s.data

/-- `extract_relevant_log_lines` (lines 144-181): locate the marker line,
check the `"testing"` line right after it, the empty line after that, scan
for the next empty line, check the `"Virtual Disk"` line right after it,
and return everything after that with empty lines discarded. List indexing
is Python indexing (`pyGet`), so an access past the end of the log is an
`IndexError`, not one of the grammar errors. -/
def extract_relevant_log_lines (pod_log : String) (node_pool_name : String) :
    Except PipelineError (List String) :=
  let log_lines := pySplitlines pod_log
  match log_lines.findIdx? (· == MARKER_LINE) with
  | none => .error (.markerNotFound node_pool_name)
  | some marker_line_index =>
    match pyGet log_lines (marker_line_index + 1) with
    | .error e => .error e
    | .ok l1 =>
      if !containsSub "testing" l1 then
        .error (.missingTestingLine node_pool_name)
      else
        match pyGet log_lines (marker_line_index + 2) with
        | .error e => .error e
        | .ok l2 =>
          if l2 ≠ "" then
            .error (.nonEmptyLineAfterTesting l2 node_pool_name)
          else
            match (log_lines.drop (marker_line_index + 3)).findIdx? (· == "") with
            | none => .error (.separatorNotFound node_pool_name)
            | some k =>
              let empty_line_index := marker_line_index + 3 + k
              match pyGet log_lines (empty_line_index + 1) with
              | .error e => .error e
              | .ok l3 =>
                if !containsSub "Virtual Disk" l3 then
                  .error (.missingVirtualDiskLine node_pool_name)
                else
                  .ok ((log_lines.drop (empty_line_index + 2)).filter (· ≠ ""))

/-- All splits of a list into (front, back), front lengths ascending. -/
def splitsAsc : List Char → List (List Char × List Char)
  | [] => [([], [])]
  | c :: cs => ([], c :: cs) :: (splitsAsc cs).map (fun p => (c :: p.1, p.2))

/-- All splits of a list into (front, back), front lengths descending
(the order a greedy `.*` tries them). -/
def splitsDesc (l : List Char) : List (List Char × List Char) :=
  (splitsAsc l).reverse

/-- Consume an exact literal from the front of the input. -/
def dropLit (lit l : List Char) : Option (List Char) :=
  if lit.isPrefixOf l then some (l.drop lit.length) else none

/-- Python's `str.strip()` with no argument: remove leading and trailing
whitespace. -/
def pyStrip (l : List Char) : List Char :=
  ((l.dropWhile Char.isWhitespace).reverse.dropWhile Char.isWhitespace).reverse

/-- Capture groups of `PTS_CSV_REGEX` (line 184). -/
structure PtsCsvGroups where
  testtool : List Char
  testconfig : List Char
  resultunit : List Char
  hib : List Char
  resultvalue : List Char
deriving DecidableEq, Repr

/-- The anchored pattern
`^"(?P<testtool>.*) - (?P<testconfig>.*?)\((?P<resultunit>.*)\)",(?P<hib>.*),(?P<resultvalue>.*)$`
of line 184, as a backtracking matcher: a leading quote; `testtool` greedy
(longest split first) up to a literal `" - "`; `testconfig` lazy (shortest
split first) up to a literal `"("`; `resultunit` greedy up to the literal
`")\","`; `hib` greedy up to a comma; `resultvalue` the rest of the line.
Candidate lines come from `splitlines`, so they contain no newline and the
`.`-excludes-newline rule of Python regexes does not come into play. -/
def ptsCsvMatch (line : List Char) : Option PtsCsvGroups :=
  match line with
  | '"' :: rest =>
    (splitsDesc rest).findSome? fun t =>
      match dropLit " - ".data t.2 with
      | none => none
      | some r2 =>
        (splitsAsc r2).findSome? fun c =>
          match dropLit "(".data c.2 with
          | none => none
          | some r4 =>
            (splitsDesc r4).findSome? fun u =>
              match dropLit ")\",".data u.2 with
              | none => none
              | some r6 =>
                (splitsDesc r6).findSome? fun h =>
                  match dropLit ",".data h.2 with
                  | none => none
                  | some r8 => some ⟨t.1, c.1, u.1, h.1, r8⟩
  | _ => none

/-- Parsing of one candidate result line (lines 243-261): regex match
(failure: line 248), tag check against the sentinel `"HIB"` (failure:
line 257), whitespace-trimming of the config group (line 251), and record
construction (line 260). -/
def parse_result_line (line : String) (node_pool_name : String) :
    Except PipelineError BenchmarkResult :=
  match ptsCsvMatch line.data with
  | none => .error (.regexMismatch line node_pool_name)
  | some g =>
    if String.mk g.hib ≠ "HIB" then
      .error (.unexpectedTag (String.mk g.hib) line node_pool_name)
    else
      .ok { vm_type := node_pool_name
            tool_name := String.mk g.testtool
            tool_config := String.mk (pyStrip g.testconfig)
            result_unit := String.mk g.resultunit
            result_value := String.mk g.resultvalue }

/-- `extract_benchmark_results_from_pod_log` (lines 188-263): extract the
relevant lines and parse each in order, stopping at the first failure. -/
def extract_benchmark_results_from_pod_log (pod_log node_pool_name : String) :
    Except PipelineError (List BenchmarkResult) :=
  match extract_relevant_log_lines pod_log node_pool_name with
  | .error e => .error e
  | .ok relevant_lines =>
    relevant_lines.mapM (parse_result_line · node_pool_name)

/-! ## ResultAggregator: `collect_benchmark_results`
(src/benchmark.py lines 266-325) -/

/-- Digits of a non-empty all-digit character run, as a number. -/
def parseDigits (cs : List Char) : Option Nat :=
  if cs = [] then none
  else if cs.all (·.isDigit) then
    some (cs.foldl (fun n c => 10 * n + (c.toNat - '0'.toNat)) 0)
  else none

/-- Split a character list at every `'.'`, keeping empty pieces. -/
def splitOnDot : List Char → List (List Char)
  | [] => [[]]
  | c :: tl =>
    let r := splitOnDot tl
    if c = '.' then [] :: r
    else
      match r with
      | [] => [[c]]
      | p :: ps => (c :: p) :: ps

def parseUnsignedDecimal (cs : List Char) : Option ℚ :=
  match splitOnDot cs with
  | [ip] => (parseDigits ip).map (fun n => (n : ℚ))
  | [ip, fp] =>
    match parseDigits ip, parseDigits fp with
    | some n, some f => some ((n : ℚ) + (f : ℚ) / (10 : ℚ) ^ fp.length)
    | _, _ => none
  | _ => none

/-- Python's `float()` on the decimal literals this pipeline handles:
an optional sign, digits, an optional fractional part. (The exotic inputs
`float()` also accepts — exponents, `inf`/`nan`, surrounding whitespace,
bare-dot forms like `"10."` — do not occur in benchmark values and are not
modelled; Python floats are modelled as exact rationals.) `none` models the
`ValueError` raised by `float()` on a non-numeric string. -/
def pyFloat? (s : String) : Option ℚ :=
  match s.data with
  | '-' :: rest => (parseUnsignedDecimal rest).map (fun q => -q)
  | '+' :: rest => parseUnsignedDecimal rest
  | cs => parseUnsignedDecimal cs

/-- Round a rational to the nearest integer, ties to even — the rounding of
Python's `round` (on our exact-rational model of floats). -/
def roundHalfEven (x : ℚ) : ℤ :=
  let f := x.floor
  let r := x - (f : ℚ)
  if r < 1 / 2 then f
  else if 1 / 2 < r then f + 1
  else if f % 2 = 0 then f else f + 1

/-- Python's `round(q, 2)`, returned as an integer count of hundredths. -/
def pyRound2cents (q : ℚ) : ℤ :=
  roundHalfEven (100 * q)

/-- Fractional-part digits of Python's `str()` of a float that is an exact
multiple of 1/100, given the hundredths modulo 100: `.0` when zero, one
digit when a multiple of ten, two digits (zero-padded) otherwise. -/
def centsFracPart (f : Nat) : String :=
  if f = 0 then "0"
  else if f % 10 = 0 then toString (f / 10)
  else if f < 10 then "0" ++ toString f
  else toString f

/-- Python's `str()` of the float `m / 100` for a natural `m`. -/
def formatNatCents (m : Nat) : String :=
  toString (m / 100) ++ "." ++ centsFracPart (m % 100)

/-- Python's `str()` of the float `n / 100`: this is how the code's
`f";{normalized_result}"` (line 321) renders a value produced by
`round(_, 2)`. -/
def formatCents (n : ℤ) : String :=
  if n < 0 then "-" ++ formatNatCents n.natAbs else formatNatCents n.natAbs

/-- The alignment key `(tool_name, tool_config, result_unit)`. -/
abbrev ResultKey := String × String × String

/-- Lexicographic non-strict comparison of a pair: strictly smaller first
component, or equal first components and related second components. -/
def lexOr {α β : Type} [LinearOrder α] (r : β → β → Prop) (a b : α × β) :
    Prop :=
  a.1 < b.1 ∨ (a.1 = b.1 ∧ r a.2 b.2)

instance {α β : Type} [lo : LinearOrder α] (r : β → β → Prop)
    [DecidableRel r] : DecidableRel (@lexOr α β lo r) := fun _ _ => by
  unfold lexOr; infer_instance

instance : DecidableRel ((· ≤ ·) : String → String → Prop) :=
  fun _ _ => String.decidableLE _ _

/-- Python's tuple comparison on the key triples: lexicographic, each
component by code-point string comparison. -/
abbrev keyLE : ResultKey → ResultKey → Prop :=
  lexOr (lexOr ((· ≤ ·) : String → String → Prop))

def keyOf (b : BenchmarkResult) : ResultKey :=
  (b.tool_name, b.tool_config, b.result_unit)

/-- The keys of every record of every source, in discovery order
(lines 283-287 accumulate them into a Python set). -/
def allKeys (results : List (String × List BenchmarkResult)) : List ResultKey :=
  (results.map (fun pr => pr.2.map keyOf)).flatten

/-- `tool_names_with_config_sorted` (lines 289-290): the distinct keys,
sorted ascending by Python tuple comparison. (The Python set is modelled by
`dedup`; the subsequent `sort` makes the set's iteration order
irrelevant.) -/
def sortedKeys (results : List (String × List BenchmarkResult)) :
    List ResultKey :=
  List.insertionSort keyLE (allKeys results).dedup

/-- `benchmark_results[node_pool_name]` (line 305): dict lookup, raising
`KeyError` when the node pool has no entry. -/
def lookupResults (results : List (String × List BenchmarkResult))
    (pool : String) : Except PipelineError (List BenchmarkResult) :=
  match results.lookup pool with
  | some items => .ok items
  | none => .error (.keyError pool)

/-- The inner search of lines 307-312: the first record of the source whose
key matches. -/
def findMatching (items : List BenchmarkResult) (k : ResultKey) :
    Option BenchmarkResult :=
  items.find? fun b =>
    b.tool_name == k.1 && b.tool_config == k.2.1 && b.result_unit == k.2.2

/-- One cell of a row (lines 305-315): look up the source's records, find
the first match (failure: the `raise` of line 314, whose message names the
tool name, the tool config and the node pool — not the result unit), and
parse the value as a float (line 309, unconditional — it runs whether or
not normalization is requested; failure models the `ValueError` of
`float()`). -/
def rowEntry (results : List (String × List BenchmarkResult)) (k : ResultKey)
    (pool : String) : Except PipelineError (BenchmarkResult × ℚ) :=
  match lookupResults results pool with
  | .error e => .error e
  | .ok items =>
    match findMatching items k with
    | none => .error (.missingResult k.1 k.2.1 pool)
    | some b =>
      match pyFloat? b.result_value with
      | none => .error (.nonNumericValue b.result_value)
      | some q => .ok (b, q)

/-- Lines 317-319: `min_value = min(normalized_results)` (raising on an
empty list, as Python's `min` does) followed by
`round(100 * x / min_value, 2)` for every value (raising
`ZeroDivisionError` when the minimum is zero, as Python float division
does). The results are returned as integer hundredths. -/
def normalizedCents (vals : List ℚ) : Except PipelineError (List ℤ) :=
  match vals with
  | [] => .error .minEmptySequence
  | v :: vs =>
    let m := vs.foldl min v
    if m = 0 then .error .zeroDivisionError
    else .ok ((v :: vs).map fun x => pyRound2cents (100 * x / m))

/-- The row label of line 302: `f"{tool_name} - {tool_config} ({result_unit})"`. -/
def rowLabel (k : ResultKey) : String :=
  k.1 ++ " - " ++ k.2.1 ++ " (" ++ k.2.2 ++ ")"

/-- The row text after the raw-value columns were appended (line 310):
each matched record's `result_value`, verbatim, one per source. -/
def rowRawLine (k : ResultKey) (cells : List (BenchmarkResult × ℚ)) : String :=
  cells.foldl (fun acc c => acc ++ ";" ++ c.1.result_value) (rowLabel k)

/-- Rendering of one row (lines 302, 310, 317-321): the label, the raw
values, and — when normalization is requested — the normalized columns,
each rendered with Python's float `str()`. -/
def renderRow (normalize : Bool) (k : ResultKey)
    (cells : List (BenchmarkResult × ℚ)) : Except PipelineError String :=
  let withRaw := rowRawLine k cells
  if normalize then
    match normalizedCents (cells.map (·.2)) with
    | .error e => .error e
    | .ok cents =>
      .ok (cents.foldl (fun acc c => acc ++ ";" ++ formatCents c) withRaw)
  else
    .ok withRaw

/-- One full row (lines 301-323): one cell per node pool, in the canonical
node-pool order, then rendering. -/
def buildRow (normalize : Bool) (pools : List String)
    (results : List (String × List BenchmarkResult)) (k : ResultKey) :
    Except PipelineError String :=
  match pools.mapM (rowEntry results k) with
  | .error e => .error e
  | .ok cells => renderRow normalize k cells

/-- The header line of lines 292-297. -/
def headerLine (normalize : Bool) (pools : List String) : String :=
  let base := pools.foldl (fun acc p => acc ++ ";" ++ p)
    "Tool name + config + result unit"
  if normalize then
    pools.foldl (fun acc p => acc ++ ";" ++ p ++ " (normalized)") base
  else base

/-- The aggregation stage of `collect_benchmark_results` (lines 282-325),
over already-parsed per-source record lists. `normalize` is the
`ADD_NORMALIZED_RESULTS == "true"` toggle and `pools` the canonical node
pool list `get_node_pool_names()`, both passed explicitly; `results` is the
`benchmark_results` dict as an association list in insertion order. -/
def aggregate_results (normalize : Bool) (pools : List String)
    (results : List (String × List BenchmarkResult)) :
    Except PipelineError String :=
  match (sortedKeys results).mapM (buildRow normalize pools results) with
  | .error e => .error e
  | .ok rows =>
    .ok (String.intercalate "\n" (headerLine normalize pools :: rows))

/-- One iteration of the parsing loop of lines 278-280: parse one source's
pod log into its record list. -/
def parseOneLog (pl : String × String) :
    Except PipelineError (String × List BenchmarkResult) :=
  match extract_benchmark_results_from_pod_log pl.2 pl.1 with
  | .error e => .error e
  | .ok items => .ok (pl.1, items)

/-- `collect_benchmark_results` (lines 269-325), continued: parse, then
aggregate. -/
def collect_benchmark_results (normalize : Bool) (pools : List String)
    (pod_logs : List (String × String)) : Except PipelineError String :=
  match pod_logs.mapM parseOneLog with
  | .error e => .error e
  | .ok results => aggregate_results normalize pools results

/-- Does source `p` hold a record matching key `k`? (Executable form of
the no-missing-cell condition.) -/
def hasMatch (results : List (String × List BenchmarkResult))
    (k : ResultKey) (p : String) : Bool :=
  match results.lookup p with
  | none => false
  | some items => (findMatching items k).isSome

/-- The grammar-stage errors of the spec's `GrammarError` taxonomy
(MarkerNotFound, the three MalformedHeader stages, SeparatorNotFound,
RecordParseError, UnexpectedTagError) — as opposed to runtime errors such
as `indexError`. -/
def isGrammarError : PipelineError → Bool
  | .markerNotFound _ | .missingTestingLine _ | .nonEmptyLineAfterTesting _ _
  | .separatorNotFound _ | .missingVirtualDiskLine _ | .regexMismatch _ _
  | .unexpectedTag _ _ _ => true
  | _ => false

/-- Number of characters after the last `'.'` of a rendered value — its
count of decimal digits. -/
def fracDigits (s : String) : Nat :=
  ((splitOnDot s.data).getLastD []).length

/-! ## General lemmas shared by several proofs -/

theorem except_bind_ok {ε α β : Type} (a : α) (f : α → Except ε β) :
    (Except.ok a >>= f) = f a := rfl

theorem except_bind_error {ε α β : Type} (e : ε) (f : α → Except ε β) :
    ((Except.error e : Except ε α) >>= f) = .error e := rfl

theorem exceptMapM_ok_mem {α β ε : Type} {f : α → Except ε β} :
    ∀ {l : List α} {ys : List β}, l.mapM f = .ok ys →
      ∀ x ∈ l, ∃ y, f x = .ok y := by
  intro l
  induction l with
  | nil => intro ys _ x hx; cases hx
  | cons a tl ih =>
    intro ys h x hx
    rw [List.mapM_cons] at h
    cases hfa : f a with
    | error e => rw [hfa, except_bind_error] at h; cases h
    | ok y =>
      rw [hfa, except_bind_ok] at h
      cases htl : tl.mapM f with
      | error e => rw [htl, except_bind_error] at h; cases h
      | ok ys2 =>
        rcases List.mem_cons.mp hx with rfl | hx2
        · exact ⟨y, hfa⟩
        · exact ih htl x hx2

theorem exceptMapM_ok_of_all {α β ε : Type} {f : α → Except ε β} :
    ∀ {l : List α}, (∀ x ∈ l, ∃ y, f x = .ok y) →
      ∃ ys, l.mapM f = .ok ys := by
  intro l
  induction l with
  | nil => intro _; exact ⟨[], rfl⟩
  | cons a tl ih =>
    intro h
    obtain ⟨y, hy⟩ := h a (List.mem_cons_self a tl)
    obtain ⟨ys, hys⟩ := ih (fun x hx => h x (List.mem_cons_of_mem a hx))
    refine ⟨y :: ys, ?_⟩
    rw [List.mapM_cons, hy, except_bind_ok, hys, except_bind_ok]
    rfl

theorem exceptMapM_ok_length {α β ε : Type} {f : α → Except ε β} :
    ∀ {l : List α} {ys : List β}, l.mapM f = .ok ys →
      ys.length = l.length := by
  intro l
  induction l with
  | nil => intro ys h; rw [List.mapM_nil] at h; cases h; rfl
  | cons a tl ih =>
    intro ys h
    rw [List.mapM_cons] at h
    cases hfa : f a with
    | error e => rw [hfa, except_bind_error] at h; cases h
    | ok y =>
      rw [hfa, except_bind_ok] at h
      cases htl : tl.mapM f with
      | error e => rw [htl, except_bind_error] at h; cases h
      | ok ys2 =>
        rw [htl, except_bind_ok] at h
        cases h
        simp [ih htl]

theorem exceptMapM_error_ex {α β ε : Type} {f : α → Except ε β} :
    ∀ {l : List α} {e : ε}, l.mapM f = .error e →
      ∃ x ∈ l, f x = .error e := by
  intro l
  induction l with
  | nil => intro e h; rw [List.mapM_nil] at h; cases h
  | cons a tl ih =>
    intro e h
    rw [List.mapM_cons] at h
    cases hfa : f a with
    | error e2 =>
      rw [hfa, except_bind_error] at h
      cases h
      exact ⟨a, List.mem_cons_self a tl, hfa⟩
    | ok y =>
      rw [hfa, except_bind_ok] at h
      cases htl : tl.mapM f with
      | error e2 =>
        rw [htl, except_bind_error] at h
        cases h
        obtain ⟨x, hx, hfx⟩ := ih htl
        exact ⟨x, List.mem_cons_of_mem a hx, hfx⟩
      | ok ys2 =>
        rw [htl, except_bind_ok] at h
        cases h

theorem exceptMapM_error_prop {α β ε : Type} {f : α → Except ε β}
    {P : ε → Prop} :
    ∀ {l : List α},
    (∀ x ∈ l, (∃ y, f x = .ok y) ∨ ∃ e, f x = .error e ∧ P e) →
    (∃ x ∈ l, ∀ y, f x ≠ .ok y) →
    ∃ e, l.mapM f = .error e ∧ P e := by
  intro l
  induction l with
  | nil => intro _ h2; obtain ⟨x, hx, _⟩ := h2; cases hx
  | cons a tl ih =>
    intro h1 h2
    rcases h1 a (List.mem_cons_self a tl) with ⟨y, hy⟩ | ⟨e, he, hPe⟩
    · obtain ⟨x, hx, hnx⟩ := h2
      rcases List.mem_cons.mp hx with rfl | hx2
      · exact (hnx y hy).elim
      · obtain ⟨e, he, hPe⟩ :=
          ih (fun z hz => h1 z (List.mem_cons_of_mem a hz)) ⟨x, hx2, hnx⟩
        refine ⟨e, ?_, hPe⟩
        rw [List.mapM_cons, hy, except_bind_ok, he, except_bind_error]
    · refine ⟨e, ?_, hPe⟩
      rw [List.mapM_cons, he, except_bind_error]

theorem mem_of_lookup_eq_some {β : Type} :
    ∀ {l : List (String × β)} {p : String} {b : β},
    l.lookup p = some b → (p, b) ∈ l := by
  intro l
  induction l with
  | nil => intro p b h; cases h
  | cons a tl ih =>
    intro p b h
    obtain ⟨k, v⟩ := a
    cases hpk : p == k with
    | true =>
      simp only [List.lookup, hpk] at h
      cases h
      have : p = k := eq_of_beq hpk
      subst this
      exact List.mem_cons_self _ _
    | false =>
      simp only [List.lookup, hpk] at h
      exact List.mem_cons_of_mem _ (ih h)

theorem foldl_min_mem : ∀ (vs : List ℚ) (v : ℚ), vs.foldl min v ∈ v :: vs := by
  intro vs
  induction vs with
  | nil => intro v; simp
  | cons a tl ih =>
    intro v
    rw [List.foldl_cons]
    rcases min_choice v a with h | h
    · rw [h]
      rcases List.mem_cons.mp (ih v) with h2 | h2
      · rw [h2]; exact List.mem_cons_self _ _
      · exact List.mem_cons_of_mem _ (List.mem_cons_of_mem _ h2)
    · rw [h]
      rcases List.mem_cons.mp (ih a) with h2 | h2
      · rw [h2]; exact List.mem_cons_of_mem _ (List.mem_cons_self _ _)
      · exact List.mem_cons_of_mem _ (List.mem_cons_of_mem _ h2)

theorem foldl_min_le :
    ∀ (vs : List ℚ) (v x : ℚ), x ∈ v :: vs → vs.foldl min v ≤ x := by
  intro vs
  induction vs with
  | nil =>
    intro v x hx
    rcases List.mem_cons.mp hx with rfl | h
    · simp
    · cases h
  | cons a tl ih =>
    intro v x hx
    rw [List.foldl_cons]
    rcases List.mem_cons.mp hx with h1 | hx2
    · subst h1
      exact le_trans (ih (min x a) _ (List.mem_cons_self _ _)) (min_le_left x a)
    rcases List.mem_cons.mp hx2 with h2 | hx3
    · subst h2
      exact le_trans (ih (min v x) _ (List.mem_cons_self _ _)) (min_le_right v x)
    · exact ih (min v a) x (List.mem_cons_of_mem _ hx3)

theorem lexOr_trans {α β : Type} [LinearOrder α] {r : β → β → Prop}
    (hr : ∀ x y z, r x y → r y z → r x z) :
    ∀ a b c : α × β, lexOr r a b → lexOr r b c → lexOr r a c := by
  rintro ⟨a1, a2⟩ ⟨b1, b2⟩ ⟨c1, c2⟩ h h'
  rcases h with h | ⟨e1, h1⟩
  · rcases h' with h' | ⟨e2, h2⟩
    · exact Or.inl (lt_trans h h')
    · exact Or.inl (lt_of_lt_of_le h (le_of_eq e2))
  · rcases h' with h' | ⟨e2, h2⟩
    · exact Or.inl (lt_of_le_of_lt (le_of_eq e1) h')
    · exact Or.inr ⟨e1.trans e2, hr _ _ _ h1 h2⟩

theorem lexOr_total {α β : Type} [LinearOrder α] {r : β → β → Prop}
    (hr : ∀ x y, r x y ∨ r y x) :
    ∀ a b : α × β, lexOr r a b ∨ lexOr r b a := by
  rintro ⟨a1, a2⟩ ⟨b1, b2⟩
  rcases lt_trichotomy a1 b1 with h | h | h
  · exact Or.inl (Or.inl h)
  · rcases hr a2 b2 with h2 | h2
    · exact Or.inl (Or.inr ⟨h, h2⟩)
    · exact Or.inr (Or.inr ⟨h.symm, h2⟩)
  · exact Or.inr (Or.inl h)

theorem lexOr_antisymm {α β : Type} [LinearOrder α] {r : β → β → Prop}
    (hr : ∀ x y, r x y → r y x → x = y) :
    ∀ a b : α × β, lexOr r a b → lexOr r b a → a = b := by
  rintro ⟨a1, a2⟩ ⟨b1, b2⟩ h h'
  rcases h with h | ⟨e1, h1⟩
  · rcases h' with h' | ⟨e2, h2⟩
    · exact absurd h' (lt_asymm h)
    · exact absurd h (by rw [e2]; exact lt_irrefl _)
  · rcases h' with h' | ⟨e2, h2⟩
    · exact absurd h' (by rw [e1]; exact lt_irrefl _)
    · rw [Prod.mk.injEq]
      exact ⟨e1, hr _ _ h1 h2⟩

instance : IsTrans ResultKey keyLE :=
  ⟨lexOr_trans (lexOr_trans (fun _ _ _ => le_trans))⟩

instance : IsTotal ResultKey keyLE :=
  ⟨lexOr_total (lexOr_total (fun a b => le_total a b))⟩

instance : IsAntisymm ResultKey keyLE :=
  ⟨lexOr_antisymm (lexOr_antisymm (fun _ _ => le_antisymm))⟩

/-! ## Theorems about the JobWaiter (claims about `wait_for_pods_to_finish`) -/

theorem waitLoop_never_terminal (poll : Nat → String → String)
    (readLog : String → String) (pods : List String)
    (h : ∀ r, (pollRound poll pods r).all isTerminalPhase = false) :
    ∀ fuel rounds, waitLoop poll readLog pods fuel rounds =
      (.finished, rounds + fuel) := by
  intro fuel
  induction fuel with
  | zero => intro rounds; simp [waitLoop]
  | succ n ih =>
    intro rounds
    rw [waitLoop, h rounds]
    simp only [Bool.false_eq_true, if_false]
    rw [ih (rounds + 1)]
    congr 1
    omega

theorem waitLoop_fail_at (poll : Nat → String → String)
    (readLog : String → String) (pods : List String) :
    ∀ (r fuel rounds i : Nat), r < fuel →
    (∀ k, k < r → (pollRound poll pods (rounds + k)).all isTerminalPhase = false) →
    (pollRound poll pods (rounds + r)).all isTerminalPhase = true →
    firstFailedIdx (pollRound poll pods (rounds + r)) = some i →
    waitLoop poll readLog pods fuel rounds =
      (.jobFailed (pods.getD i "") (readLog (pods.getD i "")), rounds + r + 1) := by
  intro r
  induction r with
  | zero =>
    intro fuel rounds i hlt _ hterm hfail
    match fuel, hlt with
    | f + 1, _ =>
      rw [waitLoop]
      simp only [Nat.add_zero] at hterm hfail
      rw [hterm]
      simp only [if_true]
      rw [hfail]
  | succ n ih =>
    intro fuel rounds i hlt hbefore hterm hfail
    match fuel, hlt with
    | f + 1, hlt =>
      rw [waitLoop]
      have h0 : (pollRound poll pods (rounds + 0)).all isTerminalPhase = false :=
        hbefore 0 (Nat.succ_pos n)
      simp only [Nat.add_zero] at h0
      rw [h0]
      simp only [Bool.false_eq_true, if_false]
      have hb : ∀ k, k < n →
          (pollRound poll pods (rounds + 1 + k)).all isTerminalPhase = false := by
        intro k hk
        have := hbefore (k + 1) (by omega)
        have he : rounds + (k + 1) = rounds + 1 + k := by omega
        rwa [he] at this
      have he : rounds + (n + 1) = rounds + 1 + n := by omega
      rw [he] at hterm hfail
      have := ih f (rounds + 1) i (by omega) hb hterm hfail
      rw [this]
      congr 2
      omega

/-- C1: the claim states that when not all jobs reach a terminal state within
`max_attempts` polling rounds, `wait_for_pods_to_finish` raises a
`TimeoutError` after issuing exactly `max_attempts` rounds and does not
return normally. The code has no such error path: when the `for` loop of
line 108 exhausts its range, control falls through to the success log of
line 129 and the function returns normally. This theorem evaluates the code
on the claim's input class: under a status provider that never reports all
pods terminal, the wait issues exactly `maxAttempts` polling rounds and then
returns normally (`WaitOutcome.finished`), raising nothing. -/
theorem wait_timeout_returns_normally (poll : Nat → String → String)
    (readLog : String → String) (pods : List String) (maxAttempts : Nat)
    (h : ∀ r, (pollRound poll pods r).all isTerminalPhase = false) :
    waitForPods poll readLog pods maxAttempts = (.finished, maxAttempts) := by
  rw [waitForPods, waitLoop_never_terminal poll readLog pods h maxAttempts 0]
  simp

/-- Witness for C1: a single pod whose status provider always answers
`"Running"`, with the code's actual bound of 180 rounds. -/
theorem wait_timeout_returns_normally_witness :
    (∀ r, (pollRound (fun _ _ => "Running") ["benchmark-a"] r).all
        isTerminalPhase = false) ∧
    waitForPods (fun _ _ => "Running") (fun _ => "") ["benchmark-a"] 180 =
      (.finished, 180) :=
  ⟨fun _ => rfl,
   wait_timeout_returns_normally (fun _ _ => "Running") (fun _ => "")
     ["benchmark-a"] 180 (fun _ => rfl)⟩

/-- C2 counterexample: the claim states that as soon as any polled job is
observed `Failed`, the wait raises `JobFailedError` in that same round even
if other jobs are still `Running`. In the code the failure check (line 116)
sits inside the all-terminal branch (line 115), so a failure observed while
another pod is still running triggers nothing. Concretely: two pods where
pod `"a"` reports `Failed` from round 0 on and pod `"b"` reports `Running`
forever — the claim says `JobFailedError` is raised in round 1; the code
instead polls all 180 rounds and returns normally. -/
theorem wait_failed_while_running_no_raise :
    (fun _ p => if p == "a" then "Failed" else "Running" : Nat → String → String)
        0 "a" = "Failed" ∧
    wait_for_pods_to_finish
        (fun _ p => if p == "a" then "Failed" else "Running")
        (fun n => "log-" ++ n) ["a", "b"] = (.finished, 180) :=
  ⟨rfl, by decide⟩

/-- C2 amended: when in some polling round all jobs are observed terminal
and at least one is `Failed`, the wait raises the job-failure error in that
same round, fetching the log of the first failed job in handle order and
bundling it into the error; a `Failed` observation in a round where some
other job is still `Running` does not raise. (Here `r` is the first round in
which all jobs are terminal, `i` the index of the first `Failed` status.) -/
theorem wait_raises_on_failure_when_all_terminal (poll : Nat → String → String)
    (readLog : String → String) (pods : List String) (maxAttempts r i : Nat)
    (hr : r < maxAttempts)
    (hbefore : ∀ k, k < r →
      (pollRound poll pods k).all isTerminalPhase = false)
    (hterm : (pollRound poll pods r).all isTerminalPhase = true)
    (hfail : firstFailedIdx (pollRound poll pods r) = some i) :
    waitForPods poll readLog pods maxAttempts =
      (.jobFailed (pods.getD i "") (readLog (pods.getD i "")), r + 1) := by
  have := waitLoop_fail_at poll readLog pods r maxAttempts 0 i hr
    (by intro k hk; simpa using hbefore k hk) (by simpa using hterm)
    (by simpa using hfail)
  rw [waitForPods, this]
  simp

/-- Witness for C2's amended theorem: three pods, all `Running` in round 0;
in round 1 pod `"b"` is `Failed` and the others `Succeeded`, so the error is
raised in round 1 (the second round), carrying pod `"b"` and its log. -/
theorem wait_raises_on_failure_when_all_terminal_witness :
    (1 < 180 ∧
     (∀ k, k < 1 → (pollRound
        (fun r p => if r == 0 then "Running"
                    else if p == "b" then "Failed" else "Succeeded")
        ["a", "b", "c"] k).all isTerminalPhase = false) ∧
     (pollRound
        (fun r p => if r == 0 then "Running"
                    else if p == "b" then "Failed" else "Succeeded")
        ["a", "b", "c"] 1).all isTerminalPhase = true ∧
     firstFailedIdx (pollRound
        (fun r p => if r == 0 then "Running"
                    else if p == "b" then "Failed" else "Succeeded")
        ["a", "b", "c"] 1) = some 1) ∧
    waitForPods
        (fun r p => if r == 0 then "Running"
                    else if p == "b" then "Failed" else "Succeeded")
        (fun n => "log-" ++ n) ["a", "b", "c"] 180 =
      (.jobFailed "b" "log-b", 2) :=
  ⟨⟨by decide, by decide, by decide, by decide⟩,
   wait_raises_on_failure_when_all_terminal
     (fun r p => if r == 0 then "Running"
                 else if p == "b" then "Failed" else "Succeeded")
     (fun n => "log-" ++ n) ["a", "b", "c"] 180 1 1
     (by decide) (by decide) (by decide) (by decide)⟩

/-! ## Theorems about the LogGrammarParser -/

/-- C8: the candidate line `"Tool - Config (Unit)",HIB,42` parses to the
record `{tool_name := "Tool", tool_config := "Config"` (surrounding
whitespace trimmed)`, result_unit := "Unit", result_value := "42"}`; every
candidate line whose tag group is anything other than the literal `"HIB"`
fails with the unexpected-tag error naming the tag, the offending line and
the source; and, end to end, extraction from a log whose candidate line
carries the tag `"XYZ"` fails with that error. -/
theorem candidate_line_parsing :
    parse_result_line "\"Tool - Config (Unit)\",HIB,42" "np" =
      .ok ⟨"np", "Tool", "Config", "Unit", "42"⟩ ∧
    (∀ (line node_pool_name : String) (g : PtsCsvGroups),
      ptsCsvMatch line.data = some g → String.mk g.hib ≠ "HIB" →
      parse_result_line line node_pool_name =
        .error (.unexpectedTag (String.mk g.hib) line node_pool_name)) ∧
    extract_benchmark_results_from_pod_log
        "benchmarkresult\nfoo testing bar\n\nmeta\n\nsome Virtual Disk line\n\"Tool - Config (Unit)\",XYZ,42"
        "np" =
      .error (.unexpectedTag "XYZ" "\"Tool - Config (Unit)\",XYZ,42" "np") := by
  refine ⟨by with_unfolding_all rfl, ?_, by with_unfolding_all rfl⟩
  intro line node_pool_name g hmatch hne
  unfold parse_result_line
  rw [hmatch]
  simp only [if_pos hne]

/-- Witness for C8: the tag-mismatch part applied to the concrete line
with tag `"XYZ"`. -/
theorem candidate_line_parsing_witness :
    ptsCsvMatch "\"Tool - Config (Unit)\",XYZ,42".data =
      some ⟨"Tool".data, "Config ".data, "Unit".data, "XYZ".data, "42".data⟩ ∧
    String.mk "XYZ".data ≠ "HIB" ∧
    parse_result_line "\"Tool - Config (Unit)\",XYZ,42" "np" =
      .error (.unexpectedTag (String.mk "XYZ".data)
        "\"Tool - Config (Unit)\",XYZ,42" "np") :=
  ⟨by with_unfolding_all rfl, by decide,
   candidate_line_parsing.2.1 _ _ _ (by with_unfolding_all rfl) (by decide)⟩

/-- C9 counterexample: the claim states that whenever the expected
structure after the marker is absent — including when the marker line is
the last line of the log — extraction fails with the grammar error of that
stage (MalformedHeader, here `missingTestingLine`), and that the line
accesses never go out of bounds without producing a grammar error. On the
log consisting of only the marker line, the access at marker+1 is out of
bounds and the failure is the runtime `IndexError`, which is not a grammar
error. -/
theorem marker_last_line_fails_with_index_error :
    extract_relevant_log_lines "benchmarkresult" "np" = .error .indexError ∧
    isGrammarError .indexError = false :=
  ⟨by with_unfolding_all rfl, rfl⟩

/-- C9 (amended): when a line exists immediately after the marker but does
not contain `"testing"`, extraction fails with the MalformedHeader-stage
error (`missingTestingLine`); but when the marker is the last line, so that
no following line exists, the access at marker+1 is out of bounds and
extraction fails with `indexError` instead of a grammar error. In both
cases extraction returns an error and no partial output. -/
theorem header_check_vs_index_error :
    (∀ (log np : String) (i : Nat),
      (pySplitlines log).findIdx? (· == MARKER_LINE) = some i →
      (pySplitlines log).length = i + 1 →
      extract_relevant_log_lines log np = .error .indexError) ∧
    (∀ (log np l1 : String) (i : Nat),
      (pySplitlines log).findIdx? (· == MARKER_LINE) = some i →
      (pySplitlines log).get? (i + 1) = some l1 →
      containsSub "testing" l1 = false →
      extract_relevant_log_lines log np = .error (.missingTestingLine np)) := by
  constructor
  · intro log np i hfind hlen
    have h2 : pyGet (pySplitlines log) (i + 1) = .error .indexError := by
      unfold pyGet
      rw [List.get?_eq_none.mpr (by omega)]
    simp only [extract_relevant_log_lines]
    simp only [hfind, h2]
  · intro log np l1 i hfind hget hjoint
    have h2 : pyGet (pySplitlines log) (i + 1) = .ok l1 := by
      unfold pyGet
      rw [hget]
    simp only [extract_relevant_log_lines]
    simp only [hfind, h2, hjoint]
    rfl

/-- Witness for C9's amended theorem: the marker-last-line case on the
one-line log, and the missing-"testing" case on a two-line log. -/
theorem header_check_vs_index_error_witness :
    ((pySplitlines "benchmarkresult").findIdx? (· == MARKER_LINE) = some 0 ∧
     (pySplitlines "benchmarkresult").length = 0 + 1 ∧
     extract_relevant_log_lines "benchmarkresult" "np2" =
       .error .indexError) ∧
    ((pySplitlines "benchmarkresult\nnope").findIdx? (· == MARKER_LINE) =
       some 0 ∧
     (pySplitlines "benchmarkresult\nnope").get? (0 + 1) = some "nope" ∧
     containsSub "testing" "nope" = false ∧
     extract_relevant_log_lines "benchmarkresult\nnope" "np" =
       .error (.missingTestingLine "np")) :=
  ⟨⟨by with_unfolding_all rfl, by with_unfolding_all rfl,
    header_check_vs_index_error.1 "benchmarkresult" "np2" 0
      (by with_unfolding_all rfl) (by with_unfolding_all rfl)⟩,
   ⟨by with_unfolding_all rfl, by with_unfolding_all rfl,
    by with_unfolding_all rfl,
    header_check_vs_index_error.2 "benchmarkresult\nnope" "np" "nope" 0
      (by with_unfolding_all rfl) (by with_unfolding_all rfl)
      (by with_unfolding_all rfl)⟩⟩

/-! ## Inversion lemmas for the aggregation pipeline -/

theorem renderRow_false_ok (k : ResultKey) (cells : List (BenchmarkResult × ℚ)) :
    renderRow false k cells = .ok (rowRawLine k cells) := rfl

theorem normalizedCents_cons (v : ℚ) (vs : List ℚ) :
    normalizedCents (v :: vs) =
      if vs.foldl min v = 0 then .error .zeroDivisionError
      else .ok ((v :: vs).map fun x =>
        pyRound2cents (100 * x / vs.foldl min v)) := rfl

theorem normalizedCents_error_shape {vals : List ℚ} {e : PipelineError}
    (h : normalizedCents vals = .error e) :
    e = .zeroDivisionError ∨ e = .minEmptySequence := by
  cases vals with
  | nil => cases h; exact Or.inr rfl
  | cons v vs =>
    rw [normalizedCents_cons] at h
    by_cases hm : vs.foldl min v = 0
    · rw [if_pos hm] at h
      cases h
      exact Or.inl rfl
    · rw [if_neg hm] at h
      cases h

theorem renderRow_error_shape {normalize : Bool} {k : ResultKey}
    {cells : List (BenchmarkResult × ℚ)} {e : PipelineError}
    (h : renderRow normalize k cells = .error e) :
    normalize = true ∧
      normalizedCents (cells.map (fun c => c.2)) = .error e ∧
      (e = .zeroDivisionError ∨ e = .minEmptySequence) := by
  unfold renderRow at h
  cases normalize with
  | false => simp at h
  | true =>
    rw [if_pos rfl] at h
    cases hm : normalizedCents (cells.map (fun c => c.2)) with
    | error e2 =>
      simp only [hm] at h
      cases h
      exact ⟨rfl, rfl, normalizedCents_error_shape hm⟩
    | ok cents => simp only [hm] at h; cases h

theorem rowEntry_ok_of_found {results : List (String × List BenchmarkResult)}
    {k : ResultKey} {p : String} {items : List BenchmarkResult}
    {b : BenchmarkResult} {q : ℚ}
    (hl : results.lookup p = some items) (hf : findMatching items k = some b)
    (hq : pyFloat? b.result_value = some q) :
    rowEntry results k p = .ok (b, q) := by
  unfold rowEntry lookupResults
  simp only [hl, hf, hq]

theorem rowEntry_ok_inv {results : List (String × List BenchmarkResult)}
    {k : ResultKey} {p : String} {cb : BenchmarkResult × ℚ}
    (h : rowEntry results k p = .ok cb) :
    ∃ items, results.lookup p = some items ∧
      findMatching items k = some cb.1 ∧
      pyFloat? cb.1.result_value = some cb.2 := by
  unfold rowEntry lookupResults at h
  cases hl : results.lookup p with
  | none => simp only [hl] at h; cases h
  | some items =>
    simp only [hl] at h
    cases hf : findMatching items k with
    | none => simp only [hf] at h; cases h
    | some b =>
      simp only [hf] at h
      cases hq : pyFloat? b.result_value with
      | none => simp only [hq] at h; cases h
      | some q =>
        simp only [hq] at h
        cases h
        exact ⟨items, rfl, hf, hq⟩

theorem rowEntry_error_inv {results : List (String × List BenchmarkResult)}
    {k : ResultKey} {p : String} {e : PipelineError}
    (h : rowEntry results k p = .error e) :
    (results.lookup p = none ∧ e = .keyError p) ∨
    (∃ items, results.lookup p = some items ∧ findMatching items k = none ∧
      e = .missingResult k.1 k.2.1 p) ∨
    (∃ items b, results.lookup p = some items ∧
      findMatching items k = some b ∧ pyFloat? b.result_value = none ∧
      e = .nonNumericValue b.result_value) := by
  unfold rowEntry lookupResults at h
  cases hl : results.lookup p with
  | none =>
    simp only [hl] at h
    cases h
    exact Or.inl ⟨rfl, rfl⟩
  | some items =>
    simp only [hl] at h
    cases hf : findMatching items k with
    | none =>
      simp only [hf] at h
      cases h
      exact Or.inr (Or.inl ⟨items, rfl, hf, rfl⟩)
    | some b =>
      simp only [hf] at h
      cases hq : pyFloat? b.result_value with
      | none =>
        simp only [hq] at h
        cases h
        exact Or.inr (Or.inr ⟨items, b, rfl, hf, hq, rfl⟩)
      | some q => simp only [hq] at h; cases h

theorem mem_of_findMatching {items : List BenchmarkResult} {k : ResultKey}
    {b : BenchmarkResult} (h : findMatching items k = some b) : b ∈ items := by
  unfold findMatching at h
  exact List.mem_of_find?_eq_some h

theorem buildRow_ok_inv {n : Bool} {pools : List String}
    {results : List (String × List BenchmarkResult)} {k : ResultKey}
    {s : String} (h : buildRow n pools results k = .ok s) :
    ∃ cells, pools.mapM (rowEntry results k) = .ok cells ∧
      renderRow n k cells = .ok s := by
  unfold buildRow at h
  cases hm : pools.mapM (rowEntry results k) with
  | error e => simp only [hm] at h; cases h
  | ok cells => simp only [hm] at h; exact ⟨cells, rfl, h⟩

theorem buildRow_error_inv {n : Bool} {pools : List String}
    {results : List (String × List BenchmarkResult)} {k : ResultKey}
    {e : PipelineError} (h : buildRow n pools results k = .error e) :
    pools.mapM (rowEntry results k) = .error e ∨
    ∃ cells, pools.mapM (rowEntry results k) = .ok cells ∧
      renderRow n k cells = .error e := by
  unfold buildRow at h
  cases hm : pools.mapM (rowEntry results k) with
  | error e2 => simp only [hm] at h; cases h; exact Or.inl rfl
  | ok cells => simp only [hm] at h; exact Or.inr ⟨cells, rfl, h⟩

theorem aggregate_ok_inv {n : Bool} {pools : List String}
    {results : List (String × List BenchmarkResult)} {out : String}
    (h : aggregate_results n pools results = .ok out) :
    ∃ rows, (sortedKeys results).mapM (buildRow n pools results) =
      .ok rows := by
  unfold aggregate_results at h
  cases hm : (sortedKeys results).mapM (buildRow n pools results) with
  | error e => simp only [hm] at h; cases h
  | ok rows => exact ⟨rows, rfl⟩

theorem aggregate_error_inv {n : Bool} {pools : List String}
    {results : List (String × List BenchmarkResult)} {e : PipelineError}
    (h : aggregate_results n pools results = .error e) :
    (sortedKeys results).mapM (buildRow n pools results) = .error e := by
  unfold aggregate_results at h
  cases hm : (sortedKeys results).mapM (buildRow n pools results) with
  | error e2 => simp only [hm] at h; cases h; exact rfl
  | ok rows => simp only [hm] at h; cases h

theorem aggregate_error_of_mapM {n : Bool} {pools : List String}
    {results : List (String × List BenchmarkResult)} {e : PipelineError}
    (h : (sortedKeys results).mapM (buildRow n pools results) = .error e) :
    aggregate_results n pools results = .error e := by
  unfold aggregate_results
  simp only [h]

/-- On success, every (key, pool) pair has a matching record whose value
parses — used by several claims. -/
theorem aggregate_ok_found {n : Bool} {pools : List String}
    {results : List (String × List BenchmarkResult)} {out : String}
    (h : aggregate_results n pools results = .ok out) :
    ∀ k ∈ sortedKeys results, ∀ p ∈ pools,
      ∃ items b, results.lookup p = some items ∧
        findMatching items k = some b ∧
        (pyFloat? b.result_value).isSome := by
  intro k hk p hp
  obtain ⟨rows, hrows⟩ := aggregate_ok_inv h
  obtain ⟨s, hs⟩ := exceptMapM_ok_mem hrows k hk
  obtain ⟨cells, hc, _⟩ := buildRow_ok_inv hs
  obtain ⟨cb, hcb⟩ := exceptMapM_ok_mem hc p hp
  obtain ⟨items, hl, hf, hq⟩ := rowEntry_ok_inv hcb
  refine ⟨items, cb.1, hl, hf, ?_⟩
  rw [hq]
  rfl

/-! ## Theorems about the ResultAggregator -/

/-- C3 counterexample: the claim states that when normalization is not
requested, aggregation does not require result values to be numeric and
a numeric-parse failure can only occur when normalization is requested.
But the `float()` conversion of line 309 runs unconditionally, before the
normalization toggle of line 317 is consulted: with normalization off and a
single aligned source carrying the non-numeric value `"abc"`, aggregation
fails with the numeric-parse error instead of succeeding. -/
theorem aggregation_rejects_nonnumeric_without_normalize :
    aggregate_results false ["A"] [("A", [⟨"A", "t", "c", "u", "abc"⟩])] =
      .error (.nonNumericValue "abc") := by
  with_unfolding_all rfl

/-- C3 (amended): aggregation parses every matched result value as a float
whether or not normalization is requested — a successful non-normalized run
implies every emitted value was numeric-parseable — and on success each
`result_value` is emitted in its original textual form (concretely,
`"020.50"` survives verbatim in the output row). -/
theorem aggregation_parses_values_even_without_normalize :
    (∀ (pools : List String) (results : List (String × List BenchmarkResult))
       (out : String),
      aggregate_results false pools results = .ok out →
      ∀ k ∈ sortedKeys results, ∀ pool ∈ pools,
        ∃ items b, results.lookup pool = some items ∧
          findMatching items k = some b ∧
          (pyFloat? b.result_value).isSome) ∧
    aggregate_results false ["A", "B"]
        [("A", [⟨"A", "t", "c", "u", "10"⟩]),
         ("B", [⟨"B", "t", "c", "u", "020.50"⟩])] =
      .ok "Tool name + config + result unit;A;B\nt - c (u);10;020.50" := by
  constructor
  · intro pools results out h k hk pool hpool
    exact aggregate_ok_found h k hk pool hpool
  · with_unfolding_all rfl

/-- Witness for C3's amended theorem, on the concrete two-source input. -/
theorem aggregation_parses_values_even_without_normalize_witness :
    (aggregate_results false ["A", "B"]
        [("A", [⟨"A", "t", "c", "u", "10"⟩]),
         ("B", [⟨"B", "t", "c", "u", "020.50"⟩])] =
      .ok "Tool name + config + result unit;A;B\nt - c (u);10;020.50" ∧
     ("t", "c", "u") ∈ sortedKeys
        [("A", [⟨"A", "t", "c", "u", "10"⟩]),
         ("B", [⟨"B", "t", "c", "u", "020.50"⟩])] ∧
     "B" ∈ ["A", "B"]) ∧
    (∃ items b,
      (List.lookup "B"
        [("A", [⟨"A", "t", "c", "u", "10"⟩]),
         ("B", [(⟨"B", "t", "c", "u", "020.50"⟩ : BenchmarkResult)])]) =
          some items ∧
      findMatching items ("t", "c", "u") = some b ∧
      (pyFloat? b.result_value).isSome) :=
  ⟨⟨by with_unfolding_all rfl, by with_unfolding_all decide, by decide⟩,
   aggregation_parses_values_even_without_normalize.1 ["A", "B"]
     [("A", [⟨"A", "t", "c", "u", "10"⟩]),
      ("B", [⟨"B", "t", "c", "u", "020.50"⟩])] _
     (by with_unfolding_all rfl) ("t", "c", "u")
     (by with_unfolding_all decide) "B" (by decide)⟩

/-- C4 counterexample: the claim states that aggregation fails with a
MissingResultError naming the offending source and key, the key being the
triple (tool_name, tool_config, result_unit). The error raised at line 314
interpolates only the tool name, the tool config and the node pool — not
the result unit. Two inputs whose missing keys differ only in the result
unit (`"u1"` vs `"u2"`) therefore produce the identical error value, so the
error does not determine (name) the key. -/
theorem missing_result_error_does_not_name_unit :
    aggregate_results false ["A", "B"]
        [("A", [⟨"A", "t", "c", "u1", "1"⟩, ⟨"A", "t", "c", "u2", "2"⟩]),
         ("B", [⟨"B", "t", "c", "u2", "2"⟩])] =
      .error (.missingResult "t" "c" "B") ∧
    aggregate_results false ["A", "B"]
        [("A", [⟨"A", "t", "c", "u1", "1"⟩, ⟨"A", "t", "c", "u2", "2"⟩]),
         ("B", [⟨"B", "t", "c", "u1", "1"⟩])] =
      .error (.missingResult "t" "c" "B") ∧
    ("u1" : String) ≠ "u2" :=
  ⟨by with_unfolding_all rfl, by with_unfolding_all rfl, by decide⟩

/-- C4 (amended): (1) a MissingResultError always names an actual offender:
it carries a source that is one of the pools and the tool name and tool
config (but not the result unit) of an observed key that the named source
lacks; (2) conversely, when every pool is present and every record value
parses, the existence of any (key, source) pair without a match makes
non-normalized aggregation fail with a MissingResultError; (3) aggregation
never emits output with a missing cell: on success every (key, source) pair
has a matching record (all-or-nothing). -/
theorem missing_result_error_sound_and_complete :
    (∀ (n : Bool) (pools : List String)
       (results : List (String × List BenchmarkResult)) (t c p : String),
      aggregate_results n pools results = .error (.missingResult t c p) →
      p ∈ pools ∧ ∃ u items, (t, c, u) ∈ sortedKeys results ∧
        results.lookup p = some items ∧
        findMatching items (t, c, u) = none) ∧
    (∀ (pools : List String)
       (results : List (String × List BenchmarkResult)),
      (∀ p ∈ pools, (results.lookup p).isSome) →
      (∀ pr ∈ results, ∀ b ∈ pr.2, (pyFloat? b.result_value).isSome) →
      (∃ k ∈ sortedKeys results, ∃ p ∈ pools, ∃ items,
        results.lookup p = some items ∧ findMatching items k = none) →
      ∃ t c p, aggregate_results false pools results =
        .error (.missingResult t c p)) ∧
    (∀ (n : Bool) (pools : List String)
       (results : List (String × List BenchmarkResult)) (out : String),
      aggregate_results n pools results = .ok out →
      ∀ k ∈ sortedKeys results, ∀ p ∈ pools,
        ∃ items b, results.lookup p = some items ∧
          findMatching items k = some b) := by
  refine ⟨?_, ?_, ?_⟩
  · -- soundness
    intro n pools results t c p h
    have hmap := aggregate_error_inv h
    obtain ⟨k, hk, hbr⟩ := exceptMapM_error_ex hmap
    rcases buildRow_error_inv hbr with hcells | ⟨cells, _, hrender⟩
    · obtain ⟨pool, hpool, hre⟩ := exceptMapM_error_ex hcells
      rcases rowEntry_error_inv hre with ⟨_, he⟩ | ⟨items, hl, hf, he⟩ |
        ⟨_, _, _, _, _, he⟩
      · cases he
      · obtain ⟨ht, hc, hp⟩ : t = k.1 ∧ c = k.2.1 ∧ p = pool := by
          cases he; exact ⟨rfl, rfl, rfl⟩
        subst ht; subst hc; subst hp
        exact ⟨hpool, k.2.2, items, hk, hl, hf⟩
      · cases he
    · rcases (renderRow_error_shape hrender).2.2 with he | he <;> cases he
  · -- completeness
    intro pools results hpresent hparse hmissing
    have hprop : ∀ k ∈ sortedKeys results,
        (∃ s, buildRow false pools results k = .ok s) ∨
        ∃ e, buildRow false pools results k = .error e ∧
          ∃ t c p, e = .missingResult t c p := by
      intro k hk
      cases hm : pools.mapM (rowEntry results k) with
      | ok cells =>
        refine Or.inl ⟨rowRawLine k cells, ?_⟩
        unfold buildRow
        rw [hm]
        exact renderRow_false_ok k cells
      | error e =>
        refine Or.inr ⟨e, ?_, ?_⟩
        · unfold buildRow
          rw [hm]
        · obtain ⟨pool, hpool, hre⟩ := exceptMapM_error_ex hm
          rcases rowEntry_error_inv hre with ⟨hnone, _⟩ |
            ⟨items, _, _, he⟩ | ⟨items, b, hl, hf, hq, _⟩
          · have hps := hpresent pool hpool
            rw [hnone] at hps
            cases hps
          · exact ⟨k.1, k.2.1, pool, he⟩
          · have hb : b ∈ items := mem_of_findMatching hf
            have hpr : (pool, items) ∈ results := mem_of_lookup_eq_some hl
            have := hparse (pool, items) hpr b hb
            rw [hq] at this
            cases this
    have hbad : ∃ k ∈ sortedKeys results,
        ∀ s, buildRow false pools results k ≠ .ok s := by
      obtain ⟨k, hk, p, hp, items, hl, hf⟩ := hmissing
      refine ⟨k, hk, ?_⟩
      intro s hs
      obtain ⟨cells, hc, _⟩ := buildRow_ok_inv hs
      obtain ⟨cb, hcb⟩ := exceptMapM_ok_mem hc p hp
      obtain ⟨items2, hl2, hf2, _⟩ := rowEntry_ok_inv hcb
      rw [hl] at hl2
      cases hl2
      rw [hf] at hf2
      cases hf2
    obtain ⟨e, he, t, c, p, hPe⟩ := exceptMapM_error_prop hprop hbad
    subst hPe
    exact ⟨t, c, p, aggregate_error_of_mapM he⟩
  · -- all-or-nothing
    intro n pools results out h k hk p hp
    obtain ⟨items, b, hl, hf, _⟩ := aggregate_ok_found h k hk p hp
    exact ⟨items, b, hl, hf⟩

/-- Witness for C4's amended theorem: the completeness part applied to the
concrete input in which source B lacks the key (t, c, u1). -/
theorem missing_result_error_sound_and_complete_witness :
    ((∀ p ∈ ["A", "B"],
        (List.lookup p
          [("A", [⟨"A", "t", "c", "u1", "1"⟩, ⟨"A", "t", "c", "u2", "2"⟩]),
           ("B", [(⟨"B", "t", "c", "u2", "2"⟩ : BenchmarkResult)])]).isSome) ∧
     (∃ k ∈ sortedKeys
          [("A", [⟨"A", "t", "c", "u1", "1"⟩, ⟨"A", "t", "c", "u2", "2"⟩]),
           ("B", [(⟨"B", "t", "c", "u2", "2"⟩ : BenchmarkResult)])],
        ∃ p ∈ ["A", "B"], ∃ items,
          (List.lookup p
            [("A", [⟨"A", "t", "c", "u1", "1"⟩, ⟨"A", "t", "c", "u2", "2"⟩]),
             ("B", [(⟨"B", "t", "c", "u2", "2"⟩ : BenchmarkResult)])]) =
            some items ∧
          findMatching items k = none)) ∧
    ∃ t c p, aggregate_results false ["A", "B"]
        [("A", [⟨"A", "t", "c", "u1", "1"⟩, ⟨"A", "t", "c", "u2", "2"⟩]),
         ("B", [⟨"B", "t", "c", "u2", "2"⟩])] =
      .error (.missingResult t c p) :=
  ⟨⟨by decide, by
      refine ⟨("t", "c", "u1"), by with_unfolding_all decide, "B",
        by decide, [⟨"B", "t", "c", "u2", "2"⟩], by decide, ?_⟩
      with_unfolding_all rfl⟩,
   missing_result_error_sound_and_complete.2.1 ["A", "B"]
     [("A", [⟨"A", "t", "c", "u1", "1"⟩, ⟨"A", "t", "c", "u2", "2"⟩]),
      ("B", [⟨"B", "t", "c", "u2", "2"⟩])]
     (by decide)
     (by with_unfolding_all decide)
     ⟨("t", "c", "u1"), by with_unfolding_all decide, "B", by decide,
      [⟨"B", "t", "c", "u2", "2"⟩], by decide, by with_unfolding_all rfl⟩⟩

/-- C5: with normalization requested and a row of parsed values whose
minimum is nonzero, each normalized column equals `round(100 * x / min, 2)`
where `min` is the row minimum (the fold of Python's `min` over the row,
which is a member of the row and a lower bound of it); every value tied at
the minimum normalizes to exactly 100 (10000 hundredths, i.e. the rational
value 100); and concretely, sources `A = {(t,c,u,"10")}` and
`B = {(t,c,u,"20")}` yield the raw row `10;20` with normalized columns
`100.0;200.0`. -/
theorem normalization_formula_and_ties :
    ∀ (v : ℚ) (vs : List ℚ), vs.foldl min v ≠ 0 →
    (normalizedCents (v :: vs) =
        .ok ((v :: vs).map fun x =>
          pyRound2cents (100 * x / vs.foldl min v)) ∧
     vs.foldl min v ∈ v :: vs ∧
     (∀ x ∈ v :: vs, vs.foldl min v ≤ x) ∧
     (∀ x ∈ v :: vs, x = vs.foldl min v →
        pyRound2cents (100 * x / vs.foldl min v) = 10000 ∧
        ((pyRound2cents (100 * x / vs.foldl min v) : ℚ) / 100 = 100)) ∧
     aggregate_results true ["A", "B"]
        [("A", [⟨"A", "t", "c", "u", "10"⟩]),
         ("B", [⟨"B", "t", "c", "u", "20"⟩])] =
      .ok "Tool name + config + result unit;A;B;A (normalized);B (normalized)\nt - c (u);10;20;100.0;200.0") := by
  intro v vs hm
  refine ⟨?_, foldl_min_mem vs v, fun x hx => foldl_min_le vs v x hx, ?_,
    by with_unfolding_all rfl⟩
  · rw [normalizedCents_cons, if_neg hm]
  · intro x hx hxe
    have h1 : 100 * x / vs.foldl min v = 100 := by
      rw [hxe, mul_div_assoc, div_self hm, mul_one]
    rw [h1]
    have h2 : pyRound2cents (100 : ℚ) = 10000 := by with_unfolding_all rfl
    rw [h2]
    norm_num

/-- Witness for C5 at the row [10, 20, 10] (whose minimum 10 is attained
twice). -/
theorem normalization_formula_and_ties_witness :
    ([(20 : ℚ), 10].foldl min 10 ≠ 0) ∧
    normalizedCents [(10 : ℚ), 20, 10] =
      .ok ([(10 : ℚ), 20, 10].map fun x =>
        pyRound2cents (100 * x / [(20 : ℚ), 10].foldl min 10)) :=
  ⟨by with_unfolding_all decide,
   (normalization_formula_and_ties 10 [20, 10]
     (by with_unfolding_all decide)).1⟩

/-- C6 counterexample: the claim states every normalized value is rendered
with exactly 2 decimal digits. On the concrete 10/20 input the normalized
cells render as `100.0` and `200.0` — Python's `str()` of the float
`round(100.0, 2)` — which carry one decimal digit, not two. -/
theorem normalized_rendering_one_decimal_digit :
    aggregate_results true ["A", "B"]
        [("A", [⟨"A", "t", "c", "u", "10"⟩]),
         ("B", [⟨"B", "t", "c", "u", "20"⟩])] =
      .ok "Tool name + config + result unit;A;B;A (normalized);B (normalized)\nt - c (u);10;20;100.0;200.0" ∧
    formatCents (pyRound2cents (100 * (10 : ℚ) / 10)) = "100.0" ∧
    fracDigits "100.0" = 1 ∧ fracDigits "100.0" ≠ 2 :=
  ⟨by with_unfolding_all rfl, by with_unfolding_all rfl, by decide, by decide⟩

/-- C6 (amended): each normalized value is rendered as Python's `str()` of
the 2-decimal-rounded float: an integer part, a dot, and at least one and
at most two decimal digits (a trailing zero in the hundredths place is
dropped, so exact tenths and integers render with a single decimal digit);
raw values appear verbatim — a non-normalized row is exactly the row label
followed by the original `result_value` strings. -/
theorem normalized_rendering_digit_bounds :
    (∀ n : ℤ, 1 ≤ (centsFracPart (n.natAbs % 100)).length ∧
       (centsFracPart (n.natAbs % 100)).length ≤ 2 ∧
       formatCents n = (if n < 0 then "-" else "") ++
         toString (n.natAbs / 100) ++ "." ++ centsFracPart (n.natAbs % 100)) ∧
    (∀ (k : ResultKey) (cells : List (BenchmarkResult × ℚ)),
      renderRow false k cells = .ok (rowRawLine k cells)) := by
  constructor
  · intro n
    have hb : ∀ f, f < 100 → 1 ≤ (centsFracPart f).length ∧
        (centsFracPart f).length ≤ 2 := by decide
    obtain ⟨h1, h2⟩ := hb (n.natAbs % 100) (Nat.mod_lt _ (by norm_num))
    refine ⟨h1, h2, ?_⟩
    unfold formatCents formatNatCents
    by_cases hn : n < 0
    · rw [if_pos hn, if_pos hn]
      simp [String.append_assoc]
    · rw [if_neg hn, if_neg hn]
      rfl
  · intro k cells
    exact renderRow_false_ok k cells

/-- C7: the aggregated table's row order is ascending lexicographic on the
key triple (tool_name, tool_config, result_unit) and depends only on the
collection of keys, not on the order records or sources were supplied;
concretely the key starting with "a" precedes the key starting with "b"
even though it was supplied second, and the data columns follow the
canonical caller-supplied pool order ["B", "A"] even though the sources
were supplied in the order A, B. -/
theorem table_row_and_column_order :
    ∀ results₁ results₂ : List (String × List BenchmarkResult),
    (allKeys results₁).Perm (allKeys results₂) →
    (List.Sorted keyLE (sortedKeys results₁) ∧
     sortedKeys results₁ = sortedKeys results₂ ∧
     sortedKeys [("A", [⟨"A", "b", "x", "u", "1"⟩]),
                 ("B", [⟨"B", "a", "y", "u", "1"⟩])] =
       [("a", "y", "u"), ("b", "x", "u")] ∧
     aggregate_results false ["B", "A"]
        [("A", [⟨"A", "t", "c", "u", "1"⟩]),
         ("B", [⟨"B", "t", "c", "u", "2"⟩])] =
       .ok "Tool name + config + result unit;B;A\nt - c (u);2;1") := by
  intro r1 r2 hperm
  refine ⟨List.sorted_insertionSort keyLE _, ?_,
    by with_unfolding_all rfl, by with_unfolding_all rfl⟩
  have hd : (allKeys r1).dedup.Perm (allKeys r2).dedup := hperm.dedup
  have h1 : (sortedKeys r1).Perm (sortedKeys r2) :=
    ((List.perm_insertionSort keyLE _).trans hd).trans
      (List.perm_insertionSort keyLE _).symm
  exact List.eq_of_perm_of_sorted h1 (List.sorted_insertionSort keyLE _)
    (List.sorted_insertionSort keyLE _)

/-- Witness for C7: the same two sources supplied in the two opposite
orders produce the same sorted key list. -/
theorem table_row_and_column_order_witness :
    (allKeys [("A", [⟨"A", "t", "c", "u", "1"⟩]),
              ("B", [(⟨"B", "t2", "c", "u", "2"⟩ : BenchmarkResult)])]).Perm
      (allKeys [("B", [⟨"B", "t2", "c", "u", "2"⟩]),
                ("A", [(⟨"A", "t", "c", "u", "1"⟩ : BenchmarkResult)])]) ∧
    sortedKeys [("A", [⟨"A", "t", "c", "u", "1"⟩]),
                ("B", [⟨"B", "t2", "c", "u", "2"⟩])] =
      sortedKeys [("B", [⟨"B", "t2", "c", "u", "2"⟩]),
                  ("A", [⟨"A", "t", "c", "u", "1"⟩])] :=
  ⟨by decide,
   (table_row_and_column_order
     [("A", [⟨"A", "t", "c", "u", "1"⟩]), ("B", [⟨"B", "t2", "c", "u", "2"⟩])]
     [("B", [⟨"B", "t2", "c", "u", "2"⟩]), ("A", [⟨"A", "t", "c", "u", "1"⟩])]
     (by decide)).2.1⟩

/-- C10: the normalization step of lines 317-319 has no zero-divisor guard:
(1) a parsed row whose minimum is zero makes `normalizedCents` fail with
the generic ZeroDivisionError (the exception Python's float division
raises); (2) at pipeline level, when every (key, pool) pair has a matching
record, every record value parses, and some row of parsed values has
minimum zero, the whole aggregation fails with ZeroDivisionError — a
generic error value naming neither source nor key; (3) concretely, a
result value of "0" in source A with normalization on fails the pipeline
with ZeroDivisionError. -/
theorem normalization_zero_min_division_error :
    (∀ (v : ℚ) (vs : List ℚ), vs.foldl min v = 0 →
      normalizedCents (v :: vs) = .error .zeroDivisionError) ∧
    (∀ (pools : List String)
       (results : List (String × List BenchmarkResult)),
      (∀ k ∈ sortedKeys results, ∀ p ∈ pools, hasMatch results k p) →
      (∀ pr ∈ results, ∀ b ∈ pr.2, (pyFloat? b.result_value).isSome) →
      (∃ k ∈ sortedKeys results, ∃ cells,
        pools.mapM (rowEntry results k) = .ok cells ∧
        ∃ v vs, cells.map (fun c => c.2) = v :: vs ∧ vs.foldl min v = 0) →
      aggregate_results true pools results = .error .zeroDivisionError) ∧
    aggregate_results true ["A", "B"]
        [("A", [⟨"A", "t", "c", "u", "0"⟩]),
         ("B", [⟨"B", "t", "c", "u", "5"⟩])] =
      .error .zeroDivisionError := by
  refine ⟨?_, ?_, by with_unfolding_all rfl⟩
  · intro v vs hm
    rw [normalizedCents_cons, if_pos hm]
  · intro pools results hfound0 hparse hzero
    have hfound : ∀ k ∈ sortedKeys results, ∀ p ∈ pools, ∃ items b,
        results.lookup p = some items ∧ findMatching items k = some b := by
      intro k hk p hp
      have hm := hfound0 k hk p hp
      unfold hasMatch at hm
      cases hl : results.lookup p with
      | none => simp only [hl] at hm; cases hm
      | some items =>
        simp only [hl] at hm
        obtain ⟨b, hb⟩ := Option.isSome_iff_exists.mp hm
        exact ⟨items, b, rfl, hb⟩
    obtain ⟨k0, hk0, cells0, hc0, v, vs, hmap0, hmin0⟩ := hzero
    have hpne : pools ≠ [] := by
      intro hp
      subst hp
      rw [List.mapM_nil] at hc0
      cases hc0
      cases hmap0
    have hall : ∀ k ∈ sortedKeys results,
        ∃ cells, pools.mapM (rowEntry results k) = .ok cells := by
      intro k hk
      refine exceptMapM_ok_of_all ?_
      intro p hp
      obtain ⟨items, b, hl, hf⟩ := hfound k hk p hp
      have hb : b ∈ items := mem_of_findMatching hf
      have hpr : (p, items) ∈ results := mem_of_lookup_eq_some hl
      have hq := hparse (p, items) hpr b hb
      obtain ⟨q, hq2⟩ := Option.isSome_iff_exists.mp hq
      exact ⟨(b, q), rowEntry_ok_of_found hl hf hq2⟩
    have hprop : ∀ k ∈ sortedKeys results,
        (∃ s, buildRow true pools results k = .ok s) ∨
        ∃ e, buildRow true pools results k = .error e ∧
          e = .zeroDivisionError := by
      intro k hk
      obtain ⟨cells, hc⟩ := hall k hk
      obtain ⟨w, ws, hws⟩ : ∃ w ws, cells.map (fun c => c.2) = w :: ws := by
        cases cells with
        | nil =>
          exact absurd (List.length_eq_zero.mp
            (exceptMapM_ok_length hc).symm) hpne
        | cons c ct => exact ⟨c.2, ct.map _, rfl⟩
      have hred : buildRow true pools results k =
          match normalizedCents (cells.map fun c => c.2) with
          | .error e => .error e
          | .ok cents => .ok (cents.foldl
              (fun acc c => acc ++ ";" ++ formatCents c)
              (rowRawLine k cells)) := by
        unfold buildRow
        simp only [hc]
        rfl
      rw [hred, hws, normalizedCents_cons]
      by_cases hm0 : ws.foldl min w = 0
      · rw [if_pos hm0]
        exact Or.inr ⟨.zeroDivisionError, rfl, rfl⟩
      · rw [if_neg hm0]
        exact Or.inl ⟨_, rfl⟩
    have hbad : ∃ k ∈ sortedKeys results,
        ∀ s, buildRow true pools results k ≠ .ok s := by
      refine ⟨k0, hk0, ?_⟩
      intro s hs
      have hred : buildRow true pools results k0 =
          match normalizedCents (cells0.map fun c => c.2) with
          | .error e => .error e
          | .ok cents => .ok (cents.foldl
              (fun acc c => acc ++ ";" ++ formatCents c)
              (rowRawLine k0 cells0)) := by
        unfold buildRow
        simp only [hc0]
        rfl
      rw [hred, hmap0, normalizedCents_cons, if_pos hmin0] at hs
      cases hs
    obtain ⟨e, he, hPe⟩ := exceptMapM_error_prop hprop hbad
    subst hPe
    exact aggregate_error_of_mapM he

/-- Witness for C10's pipeline-level part on the concrete 0/5 input. -/
theorem normalization_zero_min_division_error_witness :
    ((∀ k ∈ sortedKeys [("A", [⟨"A", "t", "c", "u", "0"⟩]),
                        ("B", [(⟨"B", "t", "c", "u", "5"⟩ : BenchmarkResult)])],
        ∀ p ∈ ["A", "B"],
          hasMatch [("A", [⟨"A", "t", "c", "u", "0"⟩]),
            ("B", [(⟨"B", "t", "c", "u", "5"⟩ : BenchmarkResult)])] k p) ∧
     (∀ pr ∈ [("A", [⟨"A", "t", "c", "u", "0"⟩]),
              ("B", [(⟨"B", "t", "c", "u", "5"⟩ : BenchmarkResult)])],
        ∀ b ∈ pr.2, (pyFloat? b.result_value).isSome)) ∧
    aggregate_results true ["A", "B"]
        [("A", [⟨"A", "t", "c", "u", "0"⟩]),
         ("B", [⟨"B", "t", "c", "u", "5"⟩])] =
      .error .zeroDivisionError :=
  ⟨⟨by with_unfolding_all decide, by with_unfolding_all decide⟩,
   normalization_zero_min_division_error.2.1 ["A", "B"]
     [("A", [⟨"A", "t", "c", "u", "0"⟩]), ("B", [⟨"B", "t", "c", "u", "5"⟩])]
     (by with_unfolding_all decide) (by with_unfolding_all decide)
     ⟨("t", "c", "u"), by with_unfolding_all decide,
      [(⟨"A", "t", "c", "u", "0"⟩, 0), (⟨"B", "t", "c", "u", "5"⟩, 5)],
      by with_unfolding_all rfl, 0, [5], by with_unfolding_all rfl,
      by with_unfolding_all decide⟩⟩

end KubeBench
